import Mathlib

set_option maxHeartbeats 1000000

set_option linter.unusedVariables false

/-! Shallow embedding of the compute-horde SDK core: the request-signing
protocol of `src/_compute_horde_models/signature.py` and the job lifecycle
state machine of `src/compute_horde_sdk/_internal/sdk.py`.

Modelling conventions:
* byte strings are `List Nat` with every element `< 256`;
* Python `dict`s are insertion-ordered association lists `List (String × α)`
  (Python 3.7+ dicts preserve insertion order, and two dicts compare equal
  when they agree as key-value maps regardless of that order);
* Python `float` wall-clock values are rationals (`ℚ`);
* the external `hashlib.blake2b` compression function is an opaque parameter
  `H : List Nat → List Nat`; the streaming `update` interface is modelled
  faithfully as buffer accumulation. -/

/-! ## Code-point lexicographic order on strings

Python's `sorted` on `str` keys compares strings lexicographically by code
point; this is the order `json.dumps(..., sort_keys=True)` uses.  The core
`String` order in Lean is iterator-based and does not reduce in the kernel,
so we define the same order structurally on the underlying character lists. -/

/-- Lexicographic (code-point) less-or-equal on character lists. -/
def charLexLe : List Char → List Char → Bool
  | [], _ => true
  | x :: xs, y :: ys => if x < y then true else if x = y then charLexLe xs ys else false
  | _, [] => false

/-- Code-point lexicographic order on strings, as Python compares `str` keys. -/
def keyLe (s t : String) : Bool := charLexLe s.data t.data

/-! ## Association lists as Python dicts -/

/-- `dictGet? l k` is Python's `d.get(k)`: the value at the first entry whose
key is `k`, if any. -/
def dictGet? {α : Type} : List (String × α) → String → Option α
  | [], _ => none
  | (k, v) :: rest, key => if key = k then some v else dictGet? rest key

/-- `dictGetD l k d` is Python's `d.get(k, d)`. -/
def dictGetD {α : Type} (l : List (String × α)) (key : String) (dflt : α) : α :=
  (dictGet? l key).getD dflt

/-- The keys of the dict are pairwise distinct (always true of a real Python
dict; our association lists only model such dicts). -/
def keysNodup {α : Type} (l : List (String × α)) : Prop := (l.map Prod.fst).Nodup

instance {α : Type} (l : List (String × α)) : Decidable (keysNodup l) :=
  inferInstanceAs (Decidable (List.Nodup _))

/-- Python `dict.__eq__` for string-valued dicts: equal as key-value maps,
independent of insertion order. -/
def dictEqStr (e1 e2 : List (String × String)) : Bool :=
  (e1.all fun kv => dictGet? e2 kv.1 == some kv.2) &&
  (e2.all fun kv => dictGet? e1 kv.1 == some kv.2)

/-! ## JSON values and Python `json.dumps` / pydantic serialization -/

/-- JSON values (`pydantic.JsonValue`).  Numbers are restricted to integers:
no float flows into any JSON serialization path of the signing protocol. -/
inductive Json where
  | null
  | bool (b : Bool)
  | num (n : Int)
  | str (s : String)
  | arr (elems : List Json)
  | obj (entries : List (String × Json))

/-- Key order used by `json.dumps(..., sort_keys=True)` lifted to entries. -/
def pairLe (p q : String × Json) : Prop := keyLe p.1 q.1 = true

instance : DecidableRel pairLe := fun _ _ => inferInstanceAs (Decidable (_ = true))

/-- Stable sort of object entries by key, as `sort_keys=True` does. -/
def sortPairs (l : List (String × Json)) : List (String × Json) :=
  List.insertionSort pairLe l

mutual
/-- Recursively sort every object's entries by key: the effect of
`sort_keys=True` on the JSON tree before rendering. -/
def sortJson : Json → Json
  | .null => .null
  | .bool b => .bool b
  | .num n => .num n
  | .str s => .str s
  | .arr xs => .arr (sortArr xs)
  | .obj kvs => .obj (sortPairs (sortEntries kvs))
def sortArr : List Json → List Json
  | [] => []
  | x :: rest => sortJson x :: sortArr rest
def sortEntries : List (String × Json) → List (String × Json)
  | [] => []
  | (k, v) :: rest => (k, sortJson v) :: sortEntries rest
end

/-- A Python `dict[str, str]` viewed as a JSON object's entry list. -/
def strMapEntries (e : List (String × String)) : List (String × Json) :=
  e.map fun kv => (kv.1, Json.str kv.2)

/-- Lower-case hexadecimal digit, as Python's `\uXXXX` escapes emit. -/
def hexDigit (n : Nat) : Char :=
  if n < 10 then Char.ofNat (48 + n) else Char.ofNat (87 + n)

/-- Python JSON string escaping of one character with `ensure_ascii=True`
(the default, used both by `json.dumps` and by pydantic): `"`, `\` and the
five short escapes; all other control or non-ASCII characters as `\uXXXX`
(a character beyond the BMP becomes a UTF-16 surrogate pair). -/
def jsonEscapeChar (c : Char) : List Char :=
  if c = '"' then ['\\', '"']
  else if c = '\\' then ['\\', '\\']
  else if c = '\n' then ['\\', 'n']
  else if c = '\t' then ['\\', 't']
  else if c = '\r' then ['\\', 'r']
  else if c.toNat = 8 then ['\\', 'b']
  else if c.toNat = 12 then ['\\', 'f']
  else if c.toNat < 32 ∨ (127 ≤ c.toNat ∧ c.toNat < 65536) then
    ['\\', 'u', hexDigit (c.toNat / 4096 % 16), hexDigit (c.toNat / 256 % 16),
     hexDigit (c.toNat / 16 % 16), hexDigit (c.toNat % 16)]
  else if 65536 ≤ c.toNat then
    let m := c.toNat - 65536
    let hi := 55296 + m / 1024
    let lo := 56320 + m % 1024
    ['\\', 'u', hexDigit (hi / 4096 % 16), hexDigit (hi / 256 % 16),
     hexDigit (hi / 16 % 16), hexDigit (hi % 16),
     '\\', 'u', hexDigit (lo / 4096 % 16), hexDigit (lo / 256 % 16),
     hexDigit (lo / 16 % 16), hexDigit (lo % 16)]
  else [c]

/-- A JSON string literal: quote and escape. -/
def jsonQuote (s : String) : List Char :=
  '"' :: s.data.foldr (fun c acc => jsonEscapeChar c ++ acc) ['"']

/-- Separators of a JSON renderer: `json.dumps` defaults to `", "`/`": "`,
pydantic's `model_dump_json` uses the compact `","`/`":"`. -/
structure DumpCfg where
  itemSep : List Char
  keySep : List Char

def pyDumpsCfg : DumpCfg := ⟨[',', ' '], [':', ' ']⟩

def compactCfg : DumpCfg := ⟨[','], [':']⟩

mutual
/-- Render a JSON value to characters (no key sorting here; sorting is the
separate `sortJson` pass). -/
def renderJson (cfg : DumpCfg) : Json → List Char
  | .null => "null".data
  | .bool true => "true".data
  | .bool false => "false".data
  | .num n => (toString n).data
  | .str s => jsonQuote s
  | .arr xs => '[' :: (renderArr cfg xs ++ [']'])
  | .obj kvs => '{' :: (renderObj cfg kvs ++ ['}'])
def renderArr (cfg : DumpCfg) : List Json → List Char
  | [] => []
  | [x] => renderJson cfg x
  | x :: y :: rest => renderJson cfg x ++ cfg.itemSep ++ renderArr cfg (y :: rest)
def renderObj (cfg : DumpCfg) : List (String × Json) → List Char
  | [] => []
  | [(k, v)] => jsonQuote k ++ cfg.keySep ++ renderJson cfg v
  | (k, v) :: e :: rest =>
    jsonQuote k ++ cfg.keySep ++ renderJson cfg v ++ cfg.itemSep ++ renderObj cfg (e :: rest)
end

/-- `json.dumps(j, sort_keys=sortKeys)` with default separators and
`ensure_ascii=True`, as called by `hash_message_signature`. -/
def pyDumps (sortKeys : Bool) (j : Json) : String :=
  String.mk (renderJson pyDumpsCfg (if sortKeys then sortJson j else j))

/-- Pydantic `model_dump_json()` rendering: compact separators, insertion
order (no key sorting). -/
def compactRender (j : Json) : String :=
  String.mk (renderJson compactCfg j)

/-- UTF-8 encoding of one character (`str.encode("utf-8")`). -/
def utf8Char (c : Char) : List Nat :=
  let n := c.toNat
  if n < 128 then [n]
  else if n < 2048 then [192 + n / 64, 128 + n % 64]
  else if n < 65536 then [224 + n / 4096, 128 + n / 64 % 64, 128 + n % 64]
  else [240 + n / 262144, 128 + n / 4096 % 64, 128 + n / 64 % 64, 128 + n % 64]

/-- UTF-8 encoding of a string as a byte list (`str.encode("utf-8")`). -/
def utf8Encode (s : String) : List Nat :=
  s.data.foldr (fun c acc => utf8Char c ++ acc) []

/-! ## The signature envelope (`_compute_horde_models/signature.py`) -/

/-- `Signature` (pydantic model): the signature envelope.  `signature` is a
byte string; `timestamp_ns` a UNIX timestamp in nanoseconds. -/
structure Signature where
  signature_type : String := ""
  signatory : String := ""
  timestamp_ns : Nat := 0
  signature : List Nat
deriving DecidableEq

/-- Value of a standard-base64 alphabet character, if it is one. -/
def valOfChar (c : Char) : Option Nat :=
  let n := c.toNat
  if 65 ≤ n ∧ n ≤ 90 then some (n - 65)
  else if 97 ≤ n ∧ n ≤ 122 then some (n - 97 + 26)
  else if 48 ≤ n ∧ n ≤ 57 then some (n - 48 + 52)
  else if n = 43 then some 62
  else if n = 47 then some 63
  else none

/-- Standard-base64 alphabet character of a 6-bit value. -/
def charOfVal (v : Nat) : Char :=
  Char.ofNat
    (if v < 26 then 65 + v
     else if v < 52 then 97 + (v - 26)
     else if v < 62 then 48 + (v - 52)
     else if v = 62 then 43 else 47)

def isB64Char (c : Char) : Bool := (valOfChar c).isSome

/-- Characters `binascii.a2b_base64` does not discard: the alphabet and `=`. -/
def b64keep (c : Char) : Bool := isB64Char c || c = '='

/-- `base64.b64encode` on a byte list (as characters, before `.decode()`). -/
def b64encodeChars : List Nat → List Char
  | [] => []
  | [x] => [charOfVal (x / 4), charOfVal (x % 4 * 16), '=', '=']
  | [x, y] => [charOfVal (x / 4), charOfVal (x % 4 * 16 + y / 16), charOfVal (y % 16 * 4), '=']
  | x :: y :: z :: rest =>
    charOfVal (x / 4) :: charOfVal (x % 4 * 16 + y / 16) ::
    charOfVal (y % 16 * 4 + z / 64) :: charOfVal (z % 64) :: b64encodeChars rest

/-- `base64.b64encode(bs).decode("utf-8")`. -/
def b64encode (bs : List Nat) : String := String.mk (b64encodeChars bs)

/-- Decode a base64 character stream four characters at a time, as the
non-strict `binascii.a2b_base64` does after discarding foreign characters:
padding (`=`) may close a quad early (anything after it is ignored, the
legacy behaviour), and a leftover of 1-3 characters is an
`Incorrect padding` error. -/
def decodeQuads : List Char → Except String (List Nat)
  | [] => .ok []
  | a :: b :: c :: d :: rest =>
    match valOfChar a, valOfChar b with
    | some va, some vb =>
      if c = '=' then
        if d = '=' then .ok [va * 4 + vb / 16]
        else .error "Invalid base64-encoded string"
      else
        match valOfChar c with
        | some vc =>
          if d = '=' then .ok [va * 4 + vb / 16, vb % 16 * 16 + vc / 4]
          else
            match valOfChar d with
            | some vd =>
              (decodeQuads rest).map fun tail =>
                (va * 4 + vb / 16) :: (vb % 16 * 16 + vc / 4) :: (vc % 4 * 64 + vd) :: tail
            | none => .error "Invalid base64-encoded string"
        | none => .error "Invalid base64-encoded string"
    | _, _ => .error "Invalid base64-encoded string"
  | _ => .error "Incorrect padding"

/-- `base64.b64decode(s)` with the default `validate=False`: characters
outside the alphabet are silently discarded before decoding. -/
def b64decode (s : String) : Except String (List Nat) :=
  decodeQuads (s.data.filter b64keep)

/-- `Signature.validate_signature`: the pydantic field validator decodes the
incoming value with `base64.b64decode`.  A raised `binascii.Error` surfaces
as a pydantic `ValidationError` (modelled as the `.error` case). -/
def Signature.validate_signature (s : String) : Except String (List Nat) := b64decode s

/-- `Signature.serialize_signature`: the pydantic field serializer encodes
the byte value with standard padded base64. -/
def Signature.serialize_signature (bs : List Nat) : String := b64encode bs

/-- `signature_to_headers(signature, prefix)`: the four `X-CH-*` headers. -/
def signature_to_headers (sig : Signature) (pfx : String) : List (String × String) :=
  [(pfx ++ "Signature-Type", sig.signature_type),
   (pfx ++ "Signatory", sig.signatory),
   (pfx ++ "Timestamp-NS", toString sig.timestamp_ns),
   (pfx ++ "Signature", b64encode sig.signature)]

/-! ## Hashing (`hash_message_signature`) -/

/-- A payload as `hash_message_signature` receives it: either a byte string
or a `JsonValue` (which includes `str`). -/
inductive PyPayload where
  | bytes (bs : List Nat)
  | json (j : Json)

/-- The bytes `hash_message_signature` feeds to the hasher for a payload:
bytes pass through; anything else is serialized by
`json.dumps(payload, sort_keys=True).encode("utf-8")`. -/
def payloadBytes : PyPayload → List Nat
  | .bytes bs => bs
  | .json j => utf8Encode (pyDumps true j)

/-- Big-endian base-256 digits of `n`, `len` bytes (`int.to_bytes` output). -/
def beBytesAux : Nat → Nat → List Nat
  | 0, _ => []
  | l + 1, n => beBytesAux l (n / 256) ++ [n % 256]

/-- `int.to_bytes(len, "big")`: `none` models the `OverflowError` raised when
the integer does not fit. -/
def toBytesBE (len n : Nat) : Option (List Nat) :=
  if n < 2 ^ (8 * len) then some (beBytesAux len n) else none

/-- The integer a big-endian byte list denotes. -/
def beVal (bs : List Nat) : Nat := bs.foldl (fun acc b => acc * 256 + b) 0

/-- The streaming `hashlib.blake2b()` hasher object, modelled as the buffer
of bytes fed to it so far.  The compression function itself is external
(`hashlib`) and stays an opaque parameter `H` of the digest. -/
structure Blake2bHasher where
  buf : List Nat

def Blake2bHasher.update (h : Blake2bHasher) (bs : List Nat) : Blake2bHasher :=
  ⟨h.buf ++ bs⟩

def Blake2bHasher.digestWith (H : List Nat → List Nat) (h : Blake2bHasher) : List Nat :=
  H h.buf

/-- `hash_message_signature(payload, signature)`: serialize a non-byte
payload as sorted-keys JSON, then blake2b over the 8-byte big-endian
`timestamp_ns` followed by the payload bytes.  `H` stands for the external
blake2b compression; `none` models the `OverflowError` of `to_bytes` when
`timestamp_ns ≥ 2^64`. -/
def hash_message_signature (H : List Nat → List Nat) (payload : PyPayload) (sig : Signature) :
    Option (List Nat) :=
  (toBytesBE 8 sig.timestamp_ns).map fun ts =>
    (((Blake2bHasher.mk []).update ts).update (payloadBytes payload)).digestWith H

/-! ## Canonical payload builder (`signature_payload`) -/

/-- Python `re`'s `\w` (ASCII range; the URLs signed by the SDK are ASCII). -/
def isWordChar (c : Char) : Bool := c.isAlpha || c.isDigit || c = '_'

/-- `_REMOVE_URL_SCHEME_N_HOST_RE.sub("", url)` for the anchored pattern
`^\w+://[^/]+`: one leading run of word characters, then `://`, then a
nonempty greedy run of non-`/` characters; at most one substitution since
the pattern is anchored.  No match leaves the string unchanged. -/
def removeUrlSchemeHostChars (url : List Char) : List Char :=
  let scheme := url.takeWhile isWordChar
  match url.dropWhile isWordChar with
  | ':' :: '/' :: '/' :: rest =>
    if scheme.isEmpty then url
    else
      let host := rest.takeWhile (fun c => c ≠ '/')
      if host.isEmpty then url else rest.dropWhile (fun c => c ≠ '/')
  | _ => url

/-- Whether the anchored pattern `^\w+://[^/]+` matches the URL at all: a
nonempty leading word-character run, `://`, and at least one non-`/`
character after it. -/
def matchesSchemeHost (url : List Char) : Bool :=
  let scheme := url.takeWhile isWordChar
  match url.dropWhile isWordChar with
  | ':' :: '/' :: '/' :: rest =>
    !scheme.isEmpty && !(rest.takeWhile (fun c => c ≠ '/')).isEmpty
  | _ => false

/-- Python `str.upper()` (ASCII; methods passed in are `"GET"`, `"POST"`, …). -/
def pyUpper (s : String) : String := String.mk (s.data.map Char.toUpper)

/-- `signature_payload(method, url, headers, json)`: the canonical structured
value that gets signed.  `headers` is accepted and ignored, as in the
source. -/
def signature_payload (method url : String) (_headers : List (String × String))
    (json : Option Json) : Json :=
  let reduced_url := String.mk (removeUrlSchemeHostChars url.data)
  .obj [("action", .str (pyUpper method ++ " " ++ reduced_url)),
        ("json", match json with | some j => j | none => .null)]

/-! ## SignedFields -/

/-- `SignedFields`: the authenticated subset of a job-creation request.
`env` is a Python dict, kept as an insertion-ordered association list. -/
structure SignedFields where
  executor_class : String
  docker_image : String
  raw_script : String
  args : String
  env : List (String × String)
  use_gpu : Bool
  volumes : List Json
  uploads : List Json

/-- The JSON tree pydantic serializes for a `SignedFields` value: fields in
declaration order, `env` entries in insertion order. -/
def SignedFields.toJsonValue (sf : SignedFields) : Json :=
  .obj [("executor_class", .str sf.executor_class),
        ("docker_image", .str sf.docker_image),
        ("raw_script", .str sf.raw_script),
        ("args", .str sf.args),
        ("env", .obj (sf.env.map fun kv => (kv.1, .str kv.2))),
        ("use_gpu", .bool sf.use_gpu),
        ("volumes", .arr sf.volumes),
        ("uploads", .arr sf.uploads)]

/-- `SignedFields.model_dump_json()`: pydantic's compact JSON rendering. -/
def SignedFields.model_dump_json (sf : SignedFields) : String :=
  compactRender sf.toJsonValue

/-- Python `==` on two `SignedFields` values (pydantic compares field dicts):
all scalar fields equal and the `env` dicts equal as maps, regardless of
insertion order. -/
def SignedFields.structEq (a b : SignedFields) : Prop :=
  a.executor_class = b.executor_class ∧ a.docker_image = b.docker_image ∧
  a.raw_script = b.raw_script ∧ a.args = b.args ∧
  dictEqStr a.env b.env = true ∧ a.use_gpu = b.use_gpu ∧
  a.volumes = b.volumes ∧ a.uploads = b.uploads

/-- The payload `ComputeHordeClient._get_signature_headers` passes into
`Signer.sign` (and thence into `hash_message_signature`): the *pre-serialized
string* `signed_fields.model_dump_json()`, not the JSON value itself. -/
def get_signature_headers_payload (sf : SignedFields) : PyPayload :=
  .json (.str sf.model_dump_json)

/-- The canonical byte sequence the client signs for a `SignedFields` value:
what `payloadBytes` yields for the payload built by
`_get_signature_headers`. -/
def canonicalSignedBytes (sf : SignedFields) : List Nat :=
  payloadBytes (get_signature_headers_payload sf)

/-! ## Signer -/

/-- A signing backend (`Signer` subclass): algorithm tag, signatory id and
the private-key signing operation `_sign` over an already-hashed digest. -/
structure Signer where
  signature_type : String
  signatory_id : String
  sign_digest : List Nat → List Nat

/-- `Signer.get_signatory()`. -/
def Signer.get_signatory (s : Signer) : String := s.signatory_id

/-- `Signer.sign(payload)`: build the provisional envelope (empty signature
bytes) with the wall-clock `time.time_ns()` value — passed here as `time_ns`,
read at the moment of signing — hash the payload with it, then fill in the
signature field.  `H` is the external blake2b compression. -/
def Signer.sign (H : List Nat → List Nat) (s : Signer) (time_ns : Nat) (payload : PyPayload) :
    Option Signature :=
  let signature : Signature :=
    { signature_type := s.signature_type, signatory := s.get_signatory,
      timestamp_ns := time_ns, signature := [] }
  (hash_message_signature H payload signature).map fun payload_hash =>
    { signature with signature := s.sign_digest payload_hash }

/-- `Signer.signature_for_request(method, url, headers, json)`. -/
def Signer.signature_for_request (H : List Nat → List Nat) (s : Signer) (time_ns : Nat)
    (method url : String) (headers : List (String × String)) (json : Option Json) :
    Option Signature :=
  s.sign H time_ns (.json (signature_payload method url headers json))

/-! ## Python `str()` of a JSON value (used by `SignedFields.from_facilitator_sdk_json`) -/

mutual
/-- Python `repr` of a JSON-shaped value (containers print with single-quoted
strings; quote-selection and escaping subtleties of `repr` are not modelled —
no signing path feeds containers to `str()`). -/
def pyReprJson : Json → List Char
  | .null => "None".data
  | .bool true => "True".data
  | .bool false => "False".data
  | .num n => (toString n).data
  | .str s => Char.ofNat 39 :: (s.data ++ [Char.ofNat 39])
  | .arr xs => '[' :: (pyReprArr xs ++ [']'])
  | .obj kvs => '{' :: (pyReprObj kvs ++ ['}'])
def pyReprArr : List Json → List Char
  | [] => []
  | [x] => pyReprJson x
  | x :: y :: rest => pyReprJson x ++ [',', ' '] ++ pyReprArr (y :: rest)
def pyReprObj : List (String × Json) → List Char
  | [] => []
  | [(k, v)] => Char.ofNat 39 :: (k.data ++ [Char.ofNat 39, ':', ' ']) ++ pyReprJson v
  | (k, v) :: e :: rest =>
    Char.ofNat 39 :: (k.data ++ [Char.ofNat 39, ':', ' ']) ++ pyReprJson v ++ [',', ' '] ++
    pyReprObj (e :: rest)
end

/-- Python `str()` of a JSON value: identity on `str`, `None`/`True`/`False`
for the keyword values, decimal for integers, `repr` for containers. -/
def pyStr : Json → String
  | .str s => s
  | .null => "None"
  | .bool true => "True"
  | .bool false => "False"
  | .num n => toString n
  | .arr xs => String.mk (pyReprJson (.arr xs))
  | .obj kvs => String.mk (pyReprJson (.obj kvs))

/-- Pydantic validation of a `dict[str, str]` field: the value must be a
JSON object whose values are all strings.  (Pydantic's lax coercions for
other shapes are not exercised by any caller modelled here.) -/
def strPairsOf : List (String × Json) → Option (List (String × String))
  | [] => some []
  | (k, .str v) :: rest => (strPairsOf rest).map ((k, v) :: ·)
  | _ => none

def jsonToStrMap : Json → Option (List (String × String))
  | .obj kvs => strPairsOf kvs
  | _ => none

/-- `SignedFields.from_facilitator_sdk_json(data)`: the four `str(...)` casts
always succeed; pydantic validation requires `env` to be a string map (its
default `data.get("env", None)` fails validation when the key is missing),
`use_gpu` to be a boolean (no default), and `volumes`/`uploads` to be lists
(default `[]`).  `none` models the pydantic `ValidationError`. -/
def SignedFields.from_facilitator_sdk_json (data : List (String × Json)) :
    Option SignedFields :=
  match jsonToStrMap (dictGetD data "env" .null), dictGetD data "use_gpu" .null,
      dictGetD data "volumes" (.arr []), dictGetD data "uploads" (.arr []) with
  | some env, .bool gpu, .arr vols, .arr ups =>
    some { executor_class := pyStr (dictGetD data "executor_class" .null),
           docker_image := pyStr (dictGetD data "docker_image" (.str "")),
           raw_script := pyStr (dictGetD data "raw_script" (.str "")),
           args := pyStr (dictGetD data "args" (.str "")),
           env := env, use_gpu := gpu, volumes := vols, uploads := ups }
  | _, _, _, _ => none

/-! ## Job lifecycle (`compute_horde_sdk/_internal/sdk.py`) -/

/-- Modelled from the spec: the job status enum lives in
`compute_horde_sdk/_internal/models.py`, which is not under `src/`.  The spec
fixes the closed set `PENDING`, `RUNNING` (in-progress) and `COMPLETED`,
`FAILED`, `REJECTED` (terminal). -/
inductive ComputeHordeJobStatus where
  | PENDING
  | RUNNING
  | COMPLETED
  | FAILED
  | REJECTED
deriving DecidableEq

/-- Modelled from the spec: `ComputeHordeJobStatus.is_in_progress()` —
`PENDING` and `RUNNING` are in-progress, the other three terminal. -/
def ComputeHordeJobStatus.is_in_progress : ComputeHordeJobStatus → Bool
  | .PENDING | .RUNNING => true
  | _ => false

/-- `ComputeHordeJobResult` (from `models.py`, shape per the spec: the
result artifact carries the job's stdout). -/
structure ComputeHordeJobResult where
  stdout : String
deriving DecidableEq

/-- The facilitator's JSON representation of a job, already schema-validated
(`FacilitatorJobResponse`): uuid, status and stdout. -/
structure FacilitatorJobResponse where
  uuid : String
  status : ComputeHordeJobStatus
  stdout : String
deriving DecidableEq

/-- The mutable state of a `ComputeHordeJob` (its non-owning client
reference is irrelevant to the modelled behaviour). -/
structure JobState where
  uuid : String
  status : ComputeHordeJobStatus
  result : Option ComputeHordeJobResult
deriving DecidableEq

/-- `ComputeHordeJob._from_response`: `result` is `None` when `stdout` is
falsy (the empty string). -/
def ComputeHordeJob.fromResponse (r : FacilitatorJobResponse) : JobState :=
  { uuid := r.uuid, status := r.status,
    result := if r.stdout = "" then none else some ⟨r.stdout⟩ }

/-- The SDK's error taxonomy, exactly the two classes of
`compute_horde_sdk/_internal/exceptions.py`: `ComputeHordeError` (with its
message) and `ComputeHordeJobTimeoutError` (whose message interpolates the
job uuid, the timeout and the last observed status; carried structurally
here). -/
inductive SDKError where
  | computeHordeError (msg : String)
  | computeHordeJobTimeoutError (job_uuid : String) (timeout : ℚ)
      (lastStatus : ComputeHordeJobStatus)
deriving DecidableEq

/-- An HTTP response from the facilitator: status code, and the result of
`FacilitatorJobResponse.model_validate_json` on its body (`none` models a
schema mismatch, i.e. a pydantic `ValidationError`). -/
structure HttpResponse where
  status_code : Nat
  parsedJob : Option FacilitatorJobResponse
deriving DecidableEq

/-- The message `_make_request` raises on a non-success status. -/
def statusMsg (code : Nat) : String :=
  "Compute Horde responded with status code " ++ toString code

/-- `ComputeHordeClient._make_request`: `httpx.raise_for_status` succeeds
exactly on 2xx; every other status becomes a generic `ComputeHordeError`
wrapping the status code. -/
def make_request (resp : HttpResponse) : Except SDKError HttpResponse :=
  if 200 ≤ resp.status_code ∧ resp.status_code ≤ 299 then .ok resp
  else .error (.computeHordeError (statusMsg resp.status_code))

/-- `ComputeHordeClient.get_job(job_uuid)` applied to the remote's response:
transport errors from `_make_request` propagate; a schema mismatch raises
`ComputeHordeError("Compute Horde returned malformed response")`; otherwise
the parsed job.  (`job_uuid` only selects the URL.) -/
def get_job (job_uuid : String) (resp : HttpResponse) : Except SDKError JobState :=
  match make_request resp with
  | .error e => .error e
  | .ok r =>
    match r.parsedJob with
    | none => .error (.computeHordeError "Compute Horde returned malformed response")
    | some jr => .ok (ComputeHordeJob.fromResponse jr)

/-- `ComputeHordeJob.refresh_from_facilitator`: unconditionally copy the
freshly fetched job's status and result into this job. -/
def refresh_from_facilitator (job : JobState) (new_job : JobState) : JobState :=
  { job with status := new_job.status, result := new_job.result }

/-- Outcome of the `wait` polling loop. -/
inductive WaitOutcome where
  | ok (job : JobState)
  | timedOut (e : SDKError) (job : JobState)
  | diverged (job : JobState)
deriving DecidableEq

/-- `ComputeHordeJob.wait(timeout)`: while the status is in-progress, raise
`ComputeHordeJobTimeoutError` if the wall clock has moved more than `timeout`
past `start_time`, else refresh from the facilitator and sleep.  `clock i` is
the `time.time()` reading at the top of iteration `i`, `remote i` the
facilitator's (2xx, schema-valid) response to iteration `i`'s refresh; `fuel`
bounds the number of iterations modelled, `.diverged` meaning the source
loop would still be polling.  Outcomes carry the job state at exit — the
source mutates `self` only through `refresh_from_facilitator`. -/
def wait (timeout : Option ℚ) (start_time : ℚ) (clock : Nat → ℚ)
    (remote : Nat → FacilitatorJobResponse) : Nat → Nat → JobState → WaitOutcome
  | 0, _, job => .diverged job
  | fuel + 1, i, job =>
    if job.status.is_in_progress then
      match timeout with
      | some t =>
        if clock i - start_time > t then
          .timedOut (.computeHordeJobTimeoutError job.uuid t job.status) job
        else
          wait timeout start_time clock remote fuel (i + 1)
            (refresh_from_facilitator job (ComputeHordeJob.fromResponse (remote i)))
      | none =>
        wait timeout start_time clock remote fuel (i + 1)
          (refresh_from_facilitator job (ComputeHordeJob.fromResponse (remote i)))
    else .ok job

/-- The one-shot feedback request `_submit_job_feedback` sends (a `PUT` with
a JSON body of floats; no signing, no validation). -/
structure FeedbackRequest where
  method : String
  url : String
  data : List (String × ℚ)
deriving DecidableEq

/-- `ComputeHordeClient._submit_job_feedback`: build the body dict —
`expected_duration` only when given — and `PUT` it to
`/jobs/{job_uuid}/feedback/`. -/
def submit_job_feedback (job_uuid : String) (result_correctness : ℚ)
    (expected_duration : Option ℚ) : FeedbackRequest :=
  { method := "PUT", url := "/jobs/" ++ job_uuid ++ "/feedback/",
    data := ("result_correctness", result_correctness) ::
      (match expected_duration with
       | some e => [("expected_duration", e)]
       | none => []) }

/-- `ComputeHordeJob.submit_feedback`: delegates to the client with this
job's uuid. -/
def ComputeHordeJob.submit_feedback (job : JobState) (result_correctness : ℚ)
    (expected_duration : Option ℚ) : FeedbackRequest :=
  submit_job_feedback job.uuid result_correctness expected_duration

/-- The request body dict `ComputeHordeClient.create_job` builds (on the
non-raising path, i.e. `run_cross_validation=False`): the fixed six entries —
with `use_gpu` hard-coded to `True` and no parameter to change it — plus
`volumes`/`uploads` only when the corresponding argument was given.
`volumes`/`uploads` arrive already converted by `to_compute_horde_volume(...)
.model_dump()`. -/
def createJobData (validator_hotkey : Option String) (executor_class : String)
    (docker_image : String) (args : List String) (env : Option (List (String × String)))
    (volumes uploads : Option (List Json)) : List (String × Json) :=
  [("target_validator_hotkey", match validator_hotkey with | some s => .str s | none => .null),
   ("executor_class", .str executor_class),
   ("docker_image", .str docker_image),
   ("args", .str (String.intercalate " " args)),
   ("env", .obj (strMapEntries (env.getD []))),
   ("use_gpu", .bool true)] ++
  (match volumes with | some v => [("volumes", .arr v)] | none => []) ++
  (match uploads with | some u => [("uploads", .arr u)] | none => [])

/-! ## Helper lemmas -/

theorem charLexLe_total : ∀ a b : List Char, charLexLe a b = true ∨ charLexLe b a = true
  | [], _ => Or.inl (by simp [charLexLe])
  | _ :: _, [] => Or.inr (by simp [charLexLe])
  | a :: as, b :: bs => by
    rcases lt_trichotomy a b with h | h | h
    · left; simp [charLexLe, h]
    · subst h
      rcases charLexLe_total as bs with ih | ih
      · left; simp [charLexLe, ih]
      · right; simp [charLexLe, ih]
    · right; simp [charLexLe, h]

theorem charLexLe_trans :
    ∀ a b c : List Char, charLexLe a b = true → charLexLe b c = true → charLexLe a c = true
  | [], _, _, _, _ => by simp [charLexLe]
  | _ :: _, [], _, h, _ => by simp [charLexLe] at h
  | _ :: _, _ :: _, [], _, h => by simp [charLexLe] at h
  | a :: as, b :: bs, c :: cs, hab, hbc => by
    simp only [charLexLe] at hab hbc ⊢
    by_cases h1 : a < b
    · by_cases h2 : b < c
      · simp [lt_trans h1 h2]
      · by_cases h3 : b = c
        · subst h3; simp [h1]
        · simp [h2, h3] at hbc
    · by_cases h1' : a = b
      · subst h1'
        by_cases h2 : a < c
        · simp [h2]
        · by_cases h3 : a = c
          · subst h3
            simp only [lt_irrefl, if_false, if_pos rfl] at hab hbc ⊢
            exact charLexLe_trans as bs cs hab hbc
          · simp [h2, h3] at hbc
      · simp [h1, h1'] at hab
  termination_by a => a.length

theorem charLexLe_antisymm :
    ∀ a b : List Char, charLexLe a b = true → charLexLe b a = true → a = b
  | [], [], _, _ => rfl
  | [], _ :: _, _, h => by simp [charLexLe] at h
  | _ :: _, [], h, _ => by simp [charLexLe] at h
  | a :: as, b :: bs, hab, hba => by
    simp only [charLexLe] at hab hba
    rcases lt_trichotomy a b with h1 | h1 | h1
    · simp [ne_of_gt h1, lt_asymm h1] at hba
    · subst h1
      simp only [lt_irrefl, if_false, if_pos rfl] at hab hba
      rw [charLexLe_antisymm as bs hab hba]
    · simp [ne_of_gt h1, lt_asymm h1] at hab

theorem keyLe_total (s t : String) : keyLe s t = true ∨ keyLe t s = true :=
  charLexLe_total s.data t.data

theorem keyLe_trans {s t u : String} (h1 : keyLe s t = true) (h2 : keyLe t u = true) :
    keyLe s u = true :=
  charLexLe_trans s.data t.data u.data h1 h2

theorem keyLe_antisymm {s t : String} (h1 : keyLe s t = true) (h2 : keyLe t s = true) : s = t :=
  String.ext (charLexLe_antisymm s.data t.data h1 h2)

theorem mem_of_dictGet?_eq_some {α : Type} :
    ∀ {l : List (String × α)} {k : String} {v : α}, dictGet? l k = some v → (k, v) ∈ l := by
  intro l
  induction l with
  | nil => intro k v h; simp [dictGet?] at h
  | cons hd tl ih =>
    intro k v h
    obtain ⟨hk, hv⟩ := hd
    simp only [dictGet?] at h
    by_cases he : k = hk
    · subst he; simp [if_pos rfl] at h; subst h; exact List.mem_cons_self _ _
    · rw [if_neg he] at h; exact List.mem_cons_of_mem _ (ih h)

theorem dictGet?_eq_some_of_mem {α : Type} :
    ∀ {l : List (String × α)} {k : String} {v : α},
      keysNodup l → (k, v) ∈ l → dictGet? l k = some v := by
  intro l
  induction l with
  | nil => intro k v _ h; simp at h
  | cons hd tl ih =>
    intro k v hnd hm
    obtain ⟨hk, hv⟩ := hd
    have hnd' : keysNodup tl := (List.nodup_cons.mp hnd).2
    rcases List.mem_cons.mp hm with h | h
    · obtain ⟨h1, h2⟩ := Prod.mk.injEq .. ▸ h
      subst h1; subst h2
      simp [dictGet?]
    · have hne : k ≠ hk := by
        intro he; subst he
        exact (List.nodup_cons.mp hnd).1 (List.mem_map.mpr ⟨(k, v), h, rfl⟩)
      simp only [dictGet?, if_neg hne]
      exact ih hnd' h

theorem perm_of_dictEqStr {e1 e2 : List (String × String)}
    (h1 : keysNodup e1) (h2 : keysNodup e2) (he : dictEqStr e1 e2 = true) :
    List.Perm e1 e2 := by
  have hd1 : e1.Nodup := List.Nodup.of_map _ h1
  have hd2 : e2.Nodup := List.Nodup.of_map _ h2
  obtain ⟨ha, hb⟩ := Bool.and_eq_true .. ▸ he
  refine (List.perm_ext_iff_of_nodup hd1 hd2).mpr ?_
  intro ⟨k, v⟩
  constructor
  · intro hm
    have := List.all_eq_true.mp ha _ hm
    exact mem_of_dictGet?_eq_some (by simpa using this)
  · intro hm
    have := List.all_eq_true.mp hb _ hm
    exact mem_of_dictGet?_eq_some (by simpa using this)

/-! ## Sorted-serialization lemmas -/

theorem sortPairs_perm (l : List (String × Json)) : List.Perm (sortPairs l) l :=
  List.perm_insertionSort pairLe l

theorem sortPairs_sorted (l : List (String × Json)) : (sortPairs l).Pairwise pairLe := by
  haveI : IsTotal (String × Json) pairLe := ⟨fun p q => keyLe_total p.1 q.1⟩
  haveI : IsTrans (String × Json) pairLe := ⟨fun _ _ _ => keyLe_trans⟩
  exact List.sorted_insertionSort pairLe l

theorem sortPairs_eq_of_perm {l1 l2 : List (String × Json)}
    (hperm : List.Perm l1 l2) (hnd : keysNodup l1) : sortPairs l1 = sortPairs l2 := by
  haveI : IsAntisymm (String × Json) (fun p q => pairLe p q ∧ p.1 ≠ q.1) :=
    ⟨fun a b h1 h2 => absurd (keyLe_antisymm h1.1 h2.1) h1.2⟩
  have p1 := sortPairs_perm l1
  have p2 := sortPairs_perm l2
  have hperm' : List.Perm (sortPairs l1) (sortPairs l2) := (p1.trans hperm).trans p2.symm
  have hsort : ∀ (l : List (String × Json)), keysNodup l →
      (sortPairs l).Pairwise fun p q => pairLe p q ∧ p.1 ≠ q.1 := by
    intro l hl
    refine (sortPairs_sorted l).and ?_
    have hmap : ((sortPairs l).map Prod.fst).Nodup :=
      (((sortPairs_perm l).map Prod.fst).nodup_iff).mpr hl
    exact List.pairwise_map.mp hmap
  have hnd2 : keysNodup l2 := ((hperm.map Prod.fst).nodup_iff).mp hnd
  exact List.eq_of_perm_of_sorted hperm' (hsort l1 hnd) (hsort l2 hnd2)

theorem sortEntries_strMapEntries (e : List (String × String)) :
    sortEntries (strMapEntries e) = strMapEntries e := by
  induction e with
  | nil => rfl
  | cons kv rest ih =>
    simp [strMapEntries, sortEntries] at ih ⊢
    exact ⟨by simp [sortJson], ih⟩

theorem map_fst_strMapEntries (e : List (String × String)) :
    (strMapEntries e).map Prod.fst = e.map Prod.fst := by
  simp [strMapEntries]

theorem strPairsOf_strMapEntries (e : List (String × String)) :
    strPairsOf (strMapEntries e) = some e := by
  induction e with
  | nil => rfl
  | cons kv rest ih => simp [strMapEntries, strPairsOf] at ih ⊢; simp [ih]

/-! ## Base64 lemmas -/

theorem valOfChar_charOfVal : ∀ v : Nat, v < 64 → valOfChar (charOfVal v) = some v := by
  have h : ∀ v : Fin 64, valOfChar (charOfVal v.val) = some v.val := by decide
  intro v hv
  exact h ⟨v, hv⟩

theorem b64keep_charOfVal : ∀ v : Nat, v < 64 → b64keep (charOfVal v) = true := by
  have h : ∀ v : Fin 64, b64keep (charOfVal v.val) = true := by decide
  intro v hv
  exact h ⟨v, hv⟩

theorem charOfVal_ne_pad : ∀ v : Nat, v < 64 → charOfVal v ≠ '=' := by
  have h : ∀ v : Fin 64, charOfVal v.val ≠ '=' := by decide
  intro v hv
  exact h ⟨v, hv⟩

theorem b64keep_pad : b64keep '=' = true := by decide

theorem filter_cons_of_keep (c : Char) (l : List Char) (h : b64keep c = true) :
    List.filter b64keep (c :: l) = c :: List.filter b64keep l := by
  simp [List.filter_cons, h]

theorem filter_b64encodeChars :
    ∀ bs : List Nat, (∀ b ∈ bs, b < 256) →
      (b64encodeChars bs).filter b64keep = b64encodeChars bs
  | [], _ => rfl
  | [x], h => by
    have hx : x < 256 := h x (by simp)
    rw [b64encodeChars,
      filter_cons_of_keep _ _ (b64keep_charOfVal (x / 4) (by omega)),
      filter_cons_of_keep _ _ (b64keep_charOfVal (x % 4 * 16) (by omega)),
      filter_cons_of_keep _ _ b64keep_pad, filter_cons_of_keep _ _ b64keep_pad,
      List.filter_nil]
  | [x, y], h => by
    have hx : x < 256 := h x (by simp)
    have hy : y < 256 := h y (by simp)
    rw [b64encodeChars,
      filter_cons_of_keep _ _ (b64keep_charOfVal (x / 4) (by omega)),
      filter_cons_of_keep _ _ (b64keep_charOfVal (x % 4 * 16 + y / 16) (by omega)),
      filter_cons_of_keep _ _ (b64keep_charOfVal (y % 16 * 4) (by omega)),
      filter_cons_of_keep _ _ b64keep_pad, List.filter_nil]
  | x :: y :: z :: rest, h => by
    have hx : x < 256 := h x (by simp)
    have hy : y < 256 := h y (by simp)
    have hz : z < 256 := h z (by simp)
    have ih := filter_b64encodeChars rest (fun b hb => h b (by simp [hb]))
    rw [b64encodeChars,
      filter_cons_of_keep _ _ (b64keep_charOfVal (x / 4) (by omega)),
      filter_cons_of_keep _ _ (b64keep_charOfVal (x % 4 * 16 + y / 16) (by omega)),
      filter_cons_of_keep _ _ (b64keep_charOfVal (y % 16 * 4 + z / 64) (by omega)),
      filter_cons_of_keep _ _ (b64keep_charOfVal (z % 64) (by omega)), ih]

theorem decodeQuads_b64encodeChars :
    ∀ bs : List Nat, (∀ b ∈ bs, b < 256) →
      decodeQuads (b64encodeChars bs) = .ok bs
  | [], _ => rfl
  | [x], h => by
    have hx : x < 256 := h x (by simp)
    simp only [b64encodeChars, decodeQuads,
      valOfChar_charOfVal (x / 4) (by omega),
      valOfChar_charOfVal (x % 4 * 16) (by omega)]
    simp only [reduceIte]
    congr 1
    have hv : x / 4 * 4 + x % 4 * 16 / 16 = x := by omega
    rw [hv]
  | [x, y], h => by
    have hx : x < 256 := h x (by simp)
    have hy : y < 256 := h y (by simp)
    simp only [b64encodeChars, decodeQuads,
      valOfChar_charOfVal (x / 4) (by omega),
      valOfChar_charOfVal (x % 4 * 16 + y / 16) (by omega)]
    rw [if_neg (charOfVal_ne_pad (y % 16 * 4) (by omega))]
    simp only [valOfChar_charOfVal (y % 16 * 4) (by omega), reduceIte]
    congr 1
    have h1 : x / 4 * 4 + (x % 4 * 16 + y / 16) / 16 = x := by omega
    have h2 : (x % 4 * 16 + y / 16) % 16 * 16 + y % 16 * 4 / 4 = y := by omega
    rw [h1, h2]
  | x :: y :: z :: rest, h => by
    have hx : x < 256 := h x (by simp)
    have hy : y < 256 := h y (by simp)
    have hz : z < 256 := h z (by simp)
    have ih := decodeQuads_b64encodeChars rest (fun b hb => h b (by simp [hb]))
    simp only [b64encodeChars, decodeQuads,
      valOfChar_charOfVal (x / 4) (by omega),
      valOfChar_charOfVal (x % 4 * 16 + y / 16) (by omega)]
    rw [if_neg (charOfVal_ne_pad (y % 16 * 4 + z / 64) (by omega))]
    simp only [valOfChar_charOfVal (y % 16 * 4 + z / 64) (by omega)]
    rw [if_neg (charOfVal_ne_pad (z % 64) (by omega))]
    simp only [valOfChar_charOfVal (z % 64) (by omega), ih, Except.map]
    congr 1
    have h1 : x / 4 * 4 + (x % 4 * 16 + y / 16) / 16 = x := by omega
    have h2 : (x % 4 * 16 + y / 16) % 16 * 16 + (y % 16 * 4 + z / 64) / 4 = y := by omega
    have h3 : (y % 16 * 4 + z / 64) % 4 * 64 + z % 64 = z := by omega
    rw [h1, h2, h3]

/-! ## Big-endian byte lemmas -/

theorem beBytesAux_length : ∀ (l n : Nat), (beBytesAux l n).length = l
  | 0, _ => rfl
  | l + 1, n => by simp [beBytesAux, beBytesAux_length l (n / 256)]

theorem beVal_append_one (xs : List Nat) (b : Nat) : beVal (xs ++ [b]) = beVal xs * 256 + b := by
  simp [beVal, List.foldl_append]

theorem beVal_beBytesAux : ∀ (l n : Nat), beVal (beBytesAux l n) = n % 2 ^ (8 * l)
  | 0, n => by simp [beBytesAux, beVal, Nat.mod_one]
  | l + 1, n => by
    rw [beBytesAux, beVal_append_one, beVal_beBytesAux l (n / 256)]
    have hp : 2 ^ (8 * (l + 1)) = 256 * 2 ^ (8 * l) := by
      rw [Nat.mul_add, Nat.pow_add]
      ring
    rw [hp, Nat.mod_mul]
    generalize n / 256 % 2 ^ (8 * l) = q
    ring

/-! ## takeWhile / dropWhile lemmas -/

theorem takeWhile_append_of_all {p : Char → Bool} :
    ∀ (l r : List Char), (∀ c ∈ l, p c = true) →
      (∀ b, r.head? = some b → p b = false) → (l ++ r).takeWhile p = l
  | [], r, _, hr => by
    cases r with
    | nil => rfl
    | cons b rs => simp [List.takeWhile_cons, hr b rfl]
  | a :: l, r, hl, hr => by
    have ha : p a = true := hl a (by simp)
    have ih := takeWhile_append_of_all l r (fun c hc => hl c (by simp [hc])) hr
    simp [List.takeWhile_cons, ha, ih]

theorem dropWhile_append_of_all {p : Char → Bool} :
    ∀ (l r : List Char), (∀ c ∈ l, p c = true) →
      (∀ b, r.head? = some b → p b = false) → (l ++ r).dropWhile p = r
  | [], r, _, hr => by
    cases r with
    | nil => rfl
    | cons b rs => simp [List.dropWhile_cons, hr b rfl]
  | a :: l, r, hl, hr => by
    have ha : p a = true := hl a (by simp)
    have ih := dropWhile_append_of_all l r (fun c hc => hl c (by simp [hc])) hr
    simp [List.dropWhile_cons, ha, ih]

/-! ## Wait-loop lemmas -/

theorem wait_times_out_aux (t start : ℚ) (clock : Nat → ℚ)
    (remote : Nat → FacilitatorJobResponse)
    (hprog : ∀ k, (remote k).status.is_in_progress = true) :
    ∀ (fuel i m : Nat) (job : JobState),
      job.status.is_in_progress = true → m < fuel → clock (i + m) - start > t →
      ∃ j : JobState,
        wait (some t) start clock remote fuel i job =
          .timedOut (.computeHordeJobTimeoutError j.uuid t j.status) j ∧
        j.uuid = job.uuid ∧ j.status.is_in_progress = true ∧
        (j = job ∨ ∃ k, i ≤ k ∧ k < i + m ∧ j.status = (remote k).status ∧
          j.result = (ComputeHordeJob.fromResponse (remote k)).result)
  | 0, i, m, job, hjob, hm, hex => absurd hm (by omega)
  | fuel + 1, i, m, job, hjob, hm, hex => by
    by_cases hcl : clock i - start > t
    · refine ⟨job, ?_, rfl, hjob, Or.inl rfl⟩
      simp [wait, hjob, hcl]
    · have hm0 : m ≠ 0 := by
        intro h0; subst h0
        exact hcl (by simpa using hex)
      obtain ⟨m', rfl⟩ : ∃ m', m = m' + 1 := ⟨m - 1, by omega⟩
      set job' : JobState :=
        refresh_from_facilitator job (ComputeHordeJob.fromResponse (remote i)) with hj'
      have hjob' : job'.status.is_in_progress = true := by
        simp [hj', refresh_from_facilitator, ComputeHordeJob.fromResponse, hprog i]
      have hex' : clock (i + 1 + m') - start > t := by
        have he : i + 1 + m' = i + (m' + 1) := by omega
        rw [he]; exact hex
      obtain ⟨j, hw, hu, hs, hlast⟩ :=
        wait_times_out_aux t start clock remote hprog fuel (i + 1) m' job' hjob'
          (by omega) hex'
      refine ⟨j, ?_, ?_, hs, ?_⟩
      · have hstep : wait (some t) start clock remote (fuel + 1) i job =
            wait (some t) start clock remote fuel (i + 1) job' := by
          simp [wait, hjob, hcl, hj']
        rw [hstep]; exact hw
      · rw [hu]; simp [hj', refresh_from_facilitator]
      · rcases hlast with hjj | ⟨k, hk1, hk2, hks, hkr⟩
        · refine Or.inr ⟨i, le_refl i, by omega, ?_, ?_⟩
          · rw [hjj]; simp [hj', refresh_from_facilitator, ComputeHordeJob.fromResponse]
          · rw [hjj]; simp [hj', refresh_from_facilitator]
        · exact Or.inr ⟨k, by omega, by omega, hks, hkr⟩

theorem wait_reaches_terminal_aux (t start : ℚ) (clock : Nat → ℚ)
    (remote : Nat → FacilitatorJobResponse) :
    ∀ (n fuel i : Nat) (job : JobState),
      (∀ k, k < n → (remote (i + k)).status.is_in_progress = true) →
      job.status.is_in_progress = true →
      (∀ k, k ≤ n → ¬(clock (i + k) - start > t)) →
      n + 2 ≤ fuel →
      (remote (i + n)).status.is_in_progress = false →
      wait (some t) start clock remote fuel i job =
        .ok { uuid := job.uuid, status := (remote (i + n)).status,
              result := (ComputeHordeJob.fromResponse (remote (i + n))).result }
  | 0, fuel, i, job, hprog, hjob, hcl, hfuel, hterm => by
    obtain ⟨f1, rfl⟩ : ∃ f1, fuel = f1 + 1 := ⟨fuel - 1, by omega⟩
    obtain ⟨f2, rfl⟩ : ∃ f2, f1 = f2 + 1 := ⟨f1 - 1, by omega⟩
    have hcl0 : ¬(clock i - start > t) := by simpa using hcl 0 (by omega)
    have hterm' : (remote i).status.is_in_progress = false := by simpa using hterm
    simp [wait, hjob, hcl0, refresh_from_facilitator, ComputeHordeJob.fromResponse, hterm']
  | n + 1, fuel, i, job, hprog, hjob, hcl, hfuel, hterm => by
    obtain ⟨f1, rfl⟩ : ∃ f1, fuel = f1 + 1 := ⟨fuel - 1, by omega⟩
    have hcl0 : ¬(clock i - start > t) := by simpa using hcl 0 (by omega)
    set job' : JobState :=
      refresh_from_facilitator job (ComputeHordeJob.fromResponse (remote i)) with hj'
    have hjob' : job'.status.is_in_progress = true := by
      have := hprog 0 (by omega)
      simp only [Nat.add_zero] at this
      simp [hj', refresh_from_facilitator, ComputeHordeJob.fromResponse, this]
    have ih := wait_reaches_terminal_aux t start clock remote n f1 (i + 1) job'
      (fun k hk => by
        have he : i + 1 + k = i + (k + 1) := by omega
        rw [he]; exact hprog (k + 1) (by omega))
      hjob'
      (fun k hk => by
        have he : i + 1 + k = i + (k + 1) := by omega
        rw [he]; exact hcl (k + 1) (by omega))
      (by omega)
      (by
        have he : i + 1 + n = i + (n + 1) := by omega
        rw [he]; exact hterm)
    have hstep : wait (some t) start clock remote (f1 + 1) i job =
        wait (some t) start clock remote f1 (i + 1) job' := by
      simp [wait, hjob, hcl0, hj']
    rw [hstep, ih]
    have he : i + 1 + n = i + (n + 1) := by omega
    simp [hj', refresh_from_facilitator, he]

/-! ## Claim C7 -/

/-- C7: for every method and URL, the canonical payload's action is
`upper(method) ++ " " ++ url-with-one-scheme-host-prefix-stripped` and nothing
else; the stripped prefix is exactly one match of `^\w+://[^/]+` (nonempty
word-character scheme, `://`, nonempty greedy run of non-`/` characters), a
non-matching URL is left unmodified, and concretely `GET` on
`"https://host.example/api/v1/jobs/"` gives action `"GET /api/v1/jobs/"`. -/
theorem signature_payload_action_strips_scheme_host :
    (∀ (method url : String) (headers : List (String × String)) (json : Option Json),
      signature_payload method url headers json =
        .obj [("action", .str (pyUpper method ++ " " ++
                String.mk (removeUrlSchemeHostChars url.data))),
              ("json", match json with | some j => j | none => .null)]) ∧
    (∀ (scheme host rest : List Char),
      scheme ≠ [] → (∀ c ∈ scheme, isWordChar c = true) →
      host ≠ [] → (∀ c ∈ host, c ≠ '/') →
      (rest = [] ∨ ∃ r', rest = '/' :: r') →
      removeUrlSchemeHostChars (scheme ++ ':' :: '/' :: '/' :: (host ++ rest)) = rest) ∧
    (∀ url : List Char, matchesSchemeHost url = false →
      removeUrlSchemeHostChars url = url) ∧
    signature_payload "GET" "https://host.example/api/v1/jobs/" [] none =
      .obj [("action", .str "GET /api/v1/jobs/"), ("json", .null)] ∧
    removeUrlSchemeHostChars "/api/v1/jobs/".data = "/api/v1/jobs/".data := by
  refine ⟨fun method url headers json => rfl, ?_, ?_, rfl, rfl⟩
  · intro scheme host rest hs hsw hh hhn hr
    have htake : (scheme ++ ':' :: '/' :: '/' :: (host ++ rest)).takeWhile isWordChar
        = scheme := by
      refine takeWhile_append_of_all scheme _ hsw ?_
      intro b hb
      simp only [List.head?] at hb
      cases hb
      decide
    have hdrop : (scheme ++ ':' :: '/' :: '/' :: (host ++ rest)).dropWhile isWordChar
        = ':' :: '/' :: '/' :: (host ++ rest) := by
      refine dropWhile_append_of_all scheme _ hsw ?_
      intro b hb
      simp only [List.head?] at hb
      cases hb
      decide
    have hse : scheme.isEmpty = false := by
      cases scheme with
      | nil => exact absurd rfl hs
      | cons a l => rfl
    have hheadr : ∀ b : Char, rest.head? = some b → (decide ¬b = '/') = false := by
      intro b hb
      rcases hr with hnil | ⟨r', hr'⟩
      · subst hnil; simp at hb
      · subst hr'
        simp only [List.head?] at hb
        cases hb
        decide
    have htake2 : (host ++ rest).takeWhile (fun c => decide ¬c = '/') = host :=
      takeWhile_append_of_all host rest
        (fun c hc => by simpa using hhn c hc) hheadr
    have hdrop2 : (host ++ rest).dropWhile (fun c => decide ¬c = '/') = rest :=
      dropWhile_append_of_all host rest
        (fun c hc => by simpa using hhn c hc) hheadr
    have hhe : host.isEmpty = false := by
      cases host with
      | nil => exact absurd rfl hh
      | cons a l => rfl
    simp only [removeUrlSchemeHostChars, htake, hdrop, hse, Bool.false_eq_true, if_false]
    simp only [htake2, hdrop2, hhe, Bool.false_eq_true, if_false]
  · intro url hm
    simp only [removeUrlSchemeHostChars]
    split
    · rename_i rest heq
      simp only [matchesSchemeHost, heq, Bool.and_eq_false_iff] at hm
      rcases hm with hm | hm
      · simp only [Bool.not_eq_false'] at hm
        simp only [hm, reduceIte]
      · simp only [Bool.not_eq_false'] at hm
        by_cases h1 : (url.takeWhile isWordChar).isEmpty
        · simp only [h1, reduceIte]
        · have h1' : (url.takeWhile isWordChar).isEmpty = false := by
            simpa using h1
          simp only [h1', Bool.false_eq_true, if_false, hm, reduceIte]
    · rfl

/-- C7 witness: the general stripping law applied at a concrete URL. -/
theorem signature_payload_action_strips_scheme_host_witness :
    removeUrlSchemeHostChars ("http".data ++ ':' :: '/' :: '/' ::
      ("example.com".data ++ '/' :: "path".data)) = '/' :: "path".data :=
  signature_payload_action_strips_scheme_host.2.1 "http".data "example.com".data
    ('/' :: "path".data) (by decide) (by decide) (by decide) (by decide)
    (Or.inr ⟨"path".data, rfl⟩)

/-! ## Claim C8 -/

/-- C8: for every timestamp and payload (timestamp within the `uint64` range
`to_bytes(8, "big")` requires), the digest is the blake2b hash of exactly the
8-byte big-endian encoding of `timestamp_ns` followed by the payload bytes —
the big-endian bytes are 8 long and denote `timestamp_ns` — and a non-byte
payload is first serialized as UTF-8 JSON with keys sorted
(`json.dumps(..., sort_keys=True)`), while a byte payload passes through. -/
theorem hash_message_signature_digest_spec (H : List Nat → List Nat) (payload : PyPayload)
    (sig : Signature) (h : sig.timestamp_ns < 2 ^ 64) :
    hash_message_signature H payload sig =
      some (H (beBytesAux 8 sig.timestamp_ns ++ payloadBytes payload)) ∧
    (beBytesAux 8 sig.timestamp_ns).length = 8 ∧
    beVal (beBytesAux 8 sig.timestamp_ns) = sig.timestamp_ns ∧
    (∀ j : Json, payloadBytes (.json j) = utf8Encode (pyDumps true j)) ∧
    (∀ bs : List Nat, payloadBytes (.bytes bs) = bs) := by
  have h8 : sig.timestamp_ns < 2 ^ (8 * 8) := by simpa using h
  have h8n : sig.timestamp_ns < 18446744073709551616 := by simpa using h8
  refine ⟨?_, beBytesAux_length 8 _, ?_, fun j => rfl, fun bs => rfl⟩
  · simp [hash_message_signature, toBytesBE, h8n, Blake2bHasher.update,
      Blake2bHasher.digestWith]
  · rw [beVal_beBytesAux]
    exact Nat.mod_eq_of_lt h8

/-- C8 witness: the digest law at a concrete timestamp and byte payload. -/
theorem hash_message_signature_digest_spec_witness :
    hash_message_signature (fun bs => bs) (.bytes [7, 8])
        { signature_type := "bittensor", signatory := "addr", timestamp_ns := 1,
          signature := [] } =
      some (beBytesAux 8 1 ++ [7, 8]) ∧ (1 : Nat) < 2 ^ 64 :=
  ⟨(hash_message_signature_digest_spec (fun bs => bs) (.bytes [7, 8])
      { signature_type := "bittensor", signatory := "addr", timestamp_ns := 1,
        signature := [] } (by norm_num)).1,
   by norm_num⟩

/-! ## Claim C9 -/

/-- C9: `Signer.sign` returns a `Signature` whose `signature_type` is the
backend's tag, whose `signatory` is `get_signatory()`, whose `timestamp_ns`
is the wall-clock nanosecond value read at signing, and whose `signature`
equals `_sign` applied to the digest of that timestamp and the canonicalized
payload; whenever `_sign` produces nonempty bytes the provisional envelope
(empty signature field) is not what is returned. -/
theorem signer_sign_spec (H : List Nat → List Nat) (s : Signer) (time_ns : Nat)
    (payload : PyPayload) (h : time_ns < 2 ^ 64) :
    Signer.sign H s time_ns payload = some
      { signature_type := s.signature_type, signatory := s.get_signatory,
        timestamp_ns := time_ns,
        signature := s.sign_digest (H (beBytesAux 8 time_ns ++ payloadBytes payload)) } ∧
    (s.sign_digest (H (beBytesAux 8 time_ns ++ payloadBytes payload)) ≠ [] →
      Signer.sign H s time_ns payload ≠ some
        { signature_type := s.signature_type, signatory := s.get_signatory,
          timestamp_ns := time_ns, signature := [] }) := by
  have h8 : time_ns < 2 ^ (8 * 8) := by simpa using h
  have h8n : time_ns < 18446744073709551616 := by simpa using h8
  have h1 : Signer.sign H s time_ns payload = some
      { signature_type := s.signature_type, signatory := s.get_signatory,
        timestamp_ns := time_ns,
        signature := s.sign_digest (H (beBytesAux 8 time_ns ++ payloadBytes payload)) } := by
    simp [Signer.sign, hash_message_signature, toBytesBE, h8n, Blake2bHasher.update,
      Blake2bHasher.digestWith]
  refine ⟨h1, fun hne heq => ?_⟩
  rw [h1] at heq
  simp only [Option.some.injEq, Signature.mk.injEq] at heq
  exact hne heq.2.2.2

/-- C9 witness: the signing law at a concrete backend, time and payload. -/
theorem signer_sign_spec_witness :
    Signer.sign (fun bs => bs)
        { signature_type := "bittensor", signatory_id := "addr",
          sign_digest := fun d => 9 :: d } 1 (.bytes []) =
      some { signature_type := "bittensor", signatory := "addr", timestamp_ns := 1,
             signature := 9 :: (beBytesAux 8 1 ++ []) } ∧ (1 : Nat) < 2 ^ 64 :=
  ⟨(signer_sign_spec (fun bs => bs)
      { signature_type := "bittensor", signatory_id := "addr",
        sign_digest := fun d => 9 :: d } 1 (.bytes []) (by norm_num)).1,
   by norm_num⟩

/-! ## Claim C10 -/

/-- C10: the request dict `create_job` builds always carries
`use_gpu = True` — the public signature exposes no parameter for it — and the
`SignedFields` value extracted from that dict (the signed subset of the
request) therefore has `use_gpu = true` for every combination of arguments. -/
theorem create_job_always_signs_use_gpu_true
    (validator_hotkey : Option String) (executor_class docker_image : String)
    (args : List String) (env : Option (List (String × String)))
    (volumes uploads : Option (List Json)) :
    dictGet? (createJobData validator_hotkey executor_class docker_image args env
        volumes uploads) "use_gpu" = some (.bool true) ∧
    SignedFields.from_facilitator_sdk_json
        (createJobData validator_hotkey executor_class docker_image args env
          volumes uploads) =
      some { executor_class := executor_class, docker_image := docker_image,
             raw_script := "", args := String.intercalate " " args,
             env := env.getD [], use_gpu := true,
             volumes := volumes.getD [], uploads := uploads.getD [] } := by
  constructor
  · rfl
  · rcases volumes with _ | v <;> rcases uploads with _ | u <;>
      simp [createJobData, SignedFields.from_facilitator_sdk_json, dictGetD, dictGet?,
        jsonToStrMap, strPairsOf_strMapEntries, pyStr]

/-! ## Claim C1 -/

/-- C1 counterexample: two `SignedFields` values that are structurally equal
(Python `==`; their `env` dicts hold the same entries, supplied in different
orders) produce different canonical byte sequences on the path
`_get_signature_headers → Signer.sign → hash_message_signature`, because the
payload handed to the digest is the pre-serialized `model_dump_json()` string,
which lists `env` in insertion order. -/
theorem env_order_changes_canonical_signed_bytes :
    SignedFields.structEq
      { executor_class := "e", docker_image := "img", raw_script := "", args := "",
        env := [("a", "1"), ("b", "2")], use_gpu := true, volumes := [], uploads := [] }
      { executor_class := "e", docker_image := "img", raw_script := "", args := "",
        env := [("b", "2"), ("a", "1")], use_gpu := true, volumes := [], uploads := [] } ∧
    canonicalSignedBytes
      { executor_class := "e", docker_image := "img", raw_script := "", args := "",
        env := [("a", "1"), ("b", "2")], use_gpu := true, volumes := [], uploads := [] } ≠
    canonicalSignedBytes
      { executor_class := "e", docker_image := "img", raw_script := "", args := "",
        env := [("b", "2"), ("a", "1")], use_gpu := true, volumes := [], uploads := [] } := by
  constructor
  · exact ⟨rfl, rfl, rfl, rfl, by decide, rfl, rfl, rfl⟩
  · decide

/-- C1 amended: the key-sorting canonicalization in `hash_message_signature`
does make the digest input independent of entry order when a dict reaches it
*as a JSON value*: two string maps equal as maps (any insertion orders, keys
distinct) hash identically.  The header-building path defeats this by
pre-serializing (see the counterexample), so equality of canonical bytes is
only guaranteed when the insertion orders agree. -/
theorem hash_message_signature_sorts_json_object_keys
    (H : List Nat → List Nat) (sig : Signature) (e1 e2 : List (String × String))
    (h1 : keysNodup e1) (h2 : keysNodup e2) (he : dictEqStr e1 e2 = true) :
    hash_message_signature H (.json (.obj (strMapEntries e1))) sig =
      hash_message_signature H (.json (.obj (strMapEntries e2))) sig := by
  have hperm : List.Perm e1 e2 := perm_of_dictEqStr h1 h2 he
  have hpm : List.Perm (strMapEntries e1) (strMapEntries e2) := hperm.map _
  have hnd1 : keysNodup (strMapEntries e1) := by
    unfold keysNodup
    rw [map_fst_strMapEntries]
    exact h1
  have hsort : sortJson (.obj (strMapEntries e1)) = sortJson (.obj (strMapEntries e2)) := by
    simp only [sortJson, sortEntries_strMapEntries]
    rw [sortPairs_eq_of_perm hpm hnd1]
  simp only [hash_message_signature, payloadBytes, pyDumps, reduceIte]
  rw [hsort]

/-- C1 witness: the sorted-hash law applied to a concrete reordered map. -/
theorem hash_message_signature_sorts_json_object_keys_witness :
    hash_message_signature (fun bs => bs)
        (.json (.obj (strMapEntries [("b", "2"), ("a", "1")])))
        { signature_type := "", signatory := "", timestamp_ns := 0, signature := [] } =
      hash_message_signature (fun bs => bs)
        (.json (.obj (strMapEntries [("a", "1"), ("b", "2")])))
        { signature_type := "", signatory := "", timestamp_ns := 0, signature := [] } :=
  hash_message_signature_sorts_json_object_keys (fun bs => bs)
    { signature_type := "", signatory := "", timestamp_ns := 0, signature := [] }
    [("b", "2"), ("a", "1")] [("a", "1"), ("b", "2")] (by decide) (by decide) (by decide)

/-! ## Claim C2 -/

/-- C2 counterexample: a job whose stored status is the terminal `COMPLETED`,
refreshed from a remote that now reports the different terminal `FAILED`, has
its status silently overwritten — `refresh_from_facilitator` is a plain
unconditional assignment, there is no inconsistency check and no error path
(the SDK's error taxonomy has no such error). -/
theorem refresh_overwrites_terminal_status_silently :
    refresh_from_facilitator
        { uuid := "job-1", status := .COMPLETED, result := some { stdout := "out" } }
        { uuid := "job-1", status := .FAILED, result := none } =
      { uuid := "job-1", status := .FAILED, result := none } ∧
    ComputeHordeJobStatus.COMPLETED.is_in_progress = false ∧
    ComputeHordeJobStatus.FAILED.is_in_progress = false ∧
    ComputeHordeJobStatus.FAILED ≠ ComputeHordeJobStatus.COMPLETED := by decide

/-- C2 amended: `refresh_from_facilitator` unconditionally overwrites the
stored status and result with whatever the remote reports — in particular a
terminal status is replaced by a different terminal status, with no
inconsistency error raised (the function is total and error-free). -/
theorem refresh_from_facilitator_unconditionally_overwrites (job new_job : JobState)
    (hjob : job.status.is_in_progress = false)
    (hnew : new_job.status.is_in_progress = false)
    (hne : new_job.status ≠ job.status) :
    refresh_from_facilitator job new_job =
      { uuid := job.uuid, status := new_job.status, result := new_job.result } ∧
    (refresh_from_facilitator job new_job).status ≠ job.status := by
  refine ⟨rfl, ?_⟩
  simpa [refresh_from_facilitator] using hne

/-- C2 witness: the overwrite law at two concrete terminal statuses. -/
theorem refresh_from_facilitator_unconditionally_overwrites_witness :
    refresh_from_facilitator
        { uuid := "j", status := .COMPLETED, result := none }
        { uuid := "j", status := .REJECTED, result := some { stdout := "s" } } =
      { uuid := "j", status := .REJECTED, result := some { stdout := "s" } } ∧
    (refresh_from_facilitator
        { uuid := "j", status := .COMPLETED, result := none }
        { uuid := "j", status := .REJECTED, result := some { stdout := "s" } }).status ≠
      ComputeHordeJobStatus.COMPLETED :=
  refresh_from_facilitator_unconditionally_overwrites
    { uuid := "j", status := .COMPLETED, result := none }
    { uuid := "j", status := .REJECTED, result := some { stdout := "s" } }
    (by decide) (by decide) (by decide)

/-! ## Claim C3 -/

/-- C3 counterexample: `submit_feedback` with the out-of-range correctness
`1.5` performs no validation — the `PUT` request carrying `1.5` is built and
sent, no error of any kind is raised beforehand (the function is total and
its error taxonomy has no `ValidationError`). -/
theorem submit_feedback_sends_out_of_range_correctness :
    ComputeHordeJob.submit_feedback
        { uuid := "job-1", status := .COMPLETED, result := none } 1.5 none =
      { method := "PUT", url := "/jobs/" ++ "job-1" ++ "/feedback/",
        data := [("result_correctness", 1.5)] } ∧
    ¬((1.5 : ℚ) ≤ 1) := by
  refine ⟨rfl, ?_⟩
  norm_num

/-- C3 amended: `submit_feedback` never validates `result_correctness`: for
every value (inside or outside `[0, 1]`) it issues the same `PUT` to
`/jobs/{uuid}/feedback/` with the value passed through verbatim, including
`expected_duration` exactly when one was given. -/
theorem submit_feedback_never_validates_correctness (job : JobState) (rc : ℚ)
    (ed : Option ℚ) :
    (ComputeHordeJob.submit_feedback job rc ed).method = "PUT" ∧
    (ComputeHordeJob.submit_feedback job rc ed).url = "/jobs/" ++ job.uuid ++ "/feedback/" ∧
    dictGet? (ComputeHordeJob.submit_feedback job rc ed).data "result_correctness" =
      some rc ∧
    (ComputeHordeJob.submit_feedback job rc ed).data =
      ("result_correctness", rc) ::
        (match ed with | some e => [("expected_duration", e)] | none => []) :=
  ⟨rfl, rfl, rfl, rfl⟩

/-! ## Claim C5 -/

/-- C5 counterexample: `"####"` is not valid base64 (none of its characters
are even in the alphabet), yet `Signature.validate_signature` silently
returns the empty byte string instead of failing: `base64.b64decode` discards
foreign characters, and no `MalformedSignatureError` type exists in the
codebase (see `SDKError`). -/
theorem b64decode_silently_drops_invalid_chars :
    Signature.validate_signature "####" = .ok [] ∧
    (∀ c ∈ "####".data, isB64Char c = false) :=
  ⟨rfl, by decide⟩

/-- C5 amended: decoding discards non-alphabet characters and fails (with a
generic `binascii`/pydantic error, not a dedicated type) only on leftover
padding; on every properly encoded value it is exact —
`validate_signature ∘ serialize_signature` is the identity on byte strings. -/
theorem validate_signature_roundtrip (bs : List Nat) (h : ∀ b ∈ bs, b < 256) :
    Signature.validate_signature (Signature.serialize_signature bs) = .ok bs := by
  show b64decode (b64encode bs) = .ok bs
  unfold b64decode b64encode
  rw [show (String.mk (b64encodeChars bs)).data = b64encodeChars bs from rfl,
    filter_b64encodeChars bs h, decodeQuads_b64encodeChars bs h]

/-- C5 witness: the round trip at a concrete byte string. -/
theorem validate_signature_roundtrip_witness :
    Signature.validate_signature (Signature.serialize_signature [0, 77, 255]) =
      .ok [0, 77, 255] :=
  validate_signature_roundtrip [0, 77, 255] (by decide)

/-! ## Claim C6 -/

/-- C6 counterexample: an unknown job id (404) and any other non-success
status (500) both surface as the *same* error constructor,
`ComputeHordeError`, differing only in the message text — there is no
`NotFoundError` subtype in the codebase (see `SDKError`), so the two failure
kinds are not distinguishable by type. -/
theorem get_job_unknown_id_same_error_type :
    get_job "job-1" { status_code := 404, parsedJob := none } =
      .error (.computeHordeError (statusMsg 404)) ∧
    get_job "job-1" { status_code := 500, parsedJob := none } =
      .error (.computeHordeError (statusMsg 500)) := ⟨rfl, rfl⟩

/-- C6 amended: for every non-2xx response — 404 included — `get_job` raises
the one generic `ComputeHordeError`, whose message merely interpolates the
status code. -/
theorem get_job_nonsuccess_generic_error (job_uuid : String) (resp : HttpResponse)
    (h : ¬(200 ≤ resp.status_code ∧ resp.status_code ≤ 299)) :
    get_job job_uuid resp = .error (.computeHordeError (statusMsg resp.status_code)) := by
  simp [get_job, make_request, h]

/-- C6 witness: the generic transport error at a concrete non-2xx status. -/
theorem get_job_nonsuccess_generic_error_witness :
    get_job "job-1" { status_code := 418, parsedJob := some ⟨"job-1", .PENDING, ""⟩ } =
      .error (.computeHordeError (statusMsg 418)) :=
  get_job_nonsuccess_generic_error "job-1"
    { status_code := 418, parsedJob := some ⟨"job-1", .PENDING, ""⟩ } (by decide)

/-! ## Claim C4 -/

/-- C4: for a job whose remote reports never leave the in-progress states and
any set timeout, `wait` fails with `ComputeHordeJobTimeoutError` carrying the
job uuid, the timeout and the *last observed* status once the clock reading
at some reached iteration exceeds `start + timeout`; the job state returned
alongside the error is either the initial one or exactly the last state the
remote reported (the timeout branch itself performs no mutation).  A job
already terminal returns immediately, and a run whose remote reports a
terminal status before the deadline ends with `.ok` carrying that report. -/
theorem wait_timeout_spec (t start : ℚ) (clock : Nat → ℚ)
    (remote : Nat → FacilitatorJobResponse) (fuel m : Nat) (job : JobState) :
    ((∀ k, (remote k).status.is_in_progress = true) →
      job.status.is_in_progress = true → m < fuel → clock m - start > t →
      ∃ j : JobState,
        wait (some t) start clock remote fuel 0 job =
          .timedOut (.computeHordeJobTimeoutError j.uuid t j.status) j ∧
        j.uuid = job.uuid ∧ j.status.is_in_progress = true ∧
        (j = job ∨ ∃ k < m, j.status = (remote k).status ∧
          j.result = (ComputeHordeJob.fromResponse (remote k)).result)) ∧
    (job.status.is_in_progress = false →
      wait (some t) start clock remote (fuel + 1) 0 job = .ok job) ∧
    (∀ n, (∀ k, k < n → (remote k).status.is_in_progress = true) →
      job.status.is_in_progress = true →
      (∀ k, k ≤ n → ¬(clock k - start > t)) →
      n + 2 ≤ fuel →
      (remote n).status.is_in_progress = false →
      wait (some t) start clock remote fuel 0 job =
        .ok { uuid := job.uuid, status := (remote n).status,
              result := (ComputeHordeJob.fromResponse (remote n)).result }) := by
  refine ⟨?_, ?_, ?_⟩
  · intro hprog hjob hm hex
    obtain ⟨j, hw, hu, hs, hlast⟩ :=
      wait_times_out_aux t start clock remote hprog fuel 0 m job hjob hm
        (by simpa using hex)
    refine ⟨j, hw, hu, hs, ?_⟩
    rcases hlast with h | ⟨k, _, hk2, hks, hkr⟩
    · exact Or.inl h
    · exact Or.inr ⟨k, by omega, hks, hkr⟩
  · intro hjob
    simp [wait, hjob]
  · intro n hprog hjob hcl hfuel hterm
    have h := wait_reaches_terminal_aux t start clock remote n fuel 0 job
      (fun k hk => by simpa using hprog k hk) hjob
      (fun k hk => by simpa using hcl k hk) hfuel (by simpa using hterm)
    simpa using h

/-- C4 witness: a job stuck in `PENDING` against clock readings `0, 1, 2, 3…`
and timeout `2` times out with the last status; a terminal job returns
immediately; a report of `COMPLETED` before the deadline ends the loop with
that result. -/
theorem wait_timeout_spec_witness :
    (∃ j : JobState,
      wait (some 2) 0 (fun i => (i : ℚ)) (fun _ => ⟨"job-1", .PENDING, ""⟩) 5 0
          { uuid := "job-1", status := .PENDING, result := none } =
        .timedOut (.computeHordeJobTimeoutError j.uuid 2 j.status) j ∧
      j.uuid = "job-1" ∧ j.status.is_in_progress = true ∧
      (j = { uuid := "job-1", status := .PENDING, result := none } ∨
        ∃ k < 3, j.status = ComputeHordeJobStatus.PENDING ∧
          j.result = (ComputeHordeJob.fromResponse ⟨"job-1", .PENDING, ""⟩).result)) ∧
    wait (some 2) 0 (fun i => (i : ℚ)) (fun _ => ⟨"job-1", .PENDING, ""⟩) 6 0
        { uuid := "job-1", status := .COMPLETED, result := none } =
      .ok { uuid := "job-1", status := .COMPLETED, result := none } ∧
    wait (some 2) 0 (fun i => (i : ℚ)) (fun _ => ⟨"job-1", .COMPLETED, "hi"⟩) 6 0
        { uuid := "job-1", status := .PENDING, result := none } =
      .ok { uuid := "job-1", status := .COMPLETED, result := some { stdout := "hi" } } := by
  refine ⟨?_, ?_, ?_⟩
  · exact (wait_timeout_spec 2 0 (fun i => (i : ℚ)) (fun _ => ⟨"job-1", .PENDING, ""⟩)
      5 3 { uuid := "job-1", status := .PENDING, result := none }).1
      (fun _ => rfl) rfl (by norm_num) (by norm_num)
  · exact (wait_timeout_spec 2 0 (fun i => (i : ℚ)) (fun _ => ⟨"job-1", .PENDING, ""⟩)
      5 3 { uuid := "job-1", status := .COMPLETED, result := none }).2.1 rfl
  · exact (wait_timeout_spec 2 0 (fun i => (i : ℚ)) (fun _ => ⟨"job-1", .COMPLETED, "hi"⟩)
      6 0 { uuid := "job-1", status := .PENDING, result := none }).2.2 0
      (fun k hk => absurd hk (by omega)) rfl
      (fun k hk => by
        have : k = 0 := by omega
        subst this
        norm_num)
      (by norm_num) rfl
